import Mathlib

/-!
# speedtest-exporter: measurement orchestration

A shallow embedding of `speedtest-exporter/main.go` (the strategy executors,
`performSpeedTest`, the single-flight guard of `updateMetrics` and the scrape
handler `metricsHandler`), followed by the properties settled about it.

Modelling conventions

* `float64` values are modelled by rationals: JSON numbers, rates and
  latencies are exact; rounding, NaN and infinities are not represented.
* The output of a command reaches the program through `json.Unmarshal`. `World`
  records what the decoder reports (`Stdout`); `decodeDocument` tells what it
  reports for a JSON document as written, where nesting beyond the decoder's
  limit and a number outside `float64` in an object are decoding errors.
* `time.Time` and `time.Duration` are integers counting nanoseconds;
  `Time.Sub` saturates to the `int64` range as in the Go library.
* The outside world (external commands, HTTP endpoints, the clock) is a
  record of outcomes, `World`; every function that touches it also returns
  the list of `Event`s it caused, in program order.
-/

namespace SpeedtestExporter

/-! ## Data model -/

/-- The Go struct `SpeedTestResult`: rates in bits per second, ping in milliseconds. -/
structure SpeedTestResult where
  Download : ℚ
  Upload : ℚ
  Ping : ℚ
  deriving DecidableEq, Repr

/-- A JSON document, object members in document order. In a document as written a number is
the exact value of its literal; in a decoded document (`Stdout`) it is the `float64` the
decoder made of the literal. -/
inductive JSON where
  | null : JSON
  | bool (b : Bool) : JSON
  | num (x : ℚ) : JSON
  | str (s : String) : JSON
  | arr (xs : List JSON) : JSON
  | obj (kvs : List (String × JSON)) : JSON

/-- A Go value of type `map[string]interface{}` produced by the decoder, as the list of
members of the JSON object it was decoded from (`[]` is the nil map). -/
abbrev GoMap := List (String × JSON)

/-- What a command wrote to standard output, as the JSON decoder reports it: `.error e` when
decoding fails with the error text `e`, because the bytes are not a JSON document, because
the document is nested beyond the decoder's limit or because a number literal of an object
lies outside `float64`; `.ok v` with the decoded document otherwise. `decodeDocument` gives
the report for a document as written. -/
abbrev Stdout := Except String JSON

/-- Observable effects, in program order. `call` marks the entry of a Go function of this
program, the other constructors are the external operations and log lines. -/
inductive Event where
  | call (fn : String) : Event
  | exec (name : String) (args : List String) : Event
  | get (url : String) : Event
  | log (line : String) : Event
  deriving DecidableEq, Repr

/-- One `resp.Body.Read(buffer)` of the download loop: `n` bytes read, whether `err != nil`,
and the value of `time.Since(start)` (nanoseconds) at the cutoff test after this read. -/
structure Read where
  n : Nat
  err : Bool
  elapsed : Int
  deriving DecidableEq, Repr

/-- A successful `http.Get`: the reads its body yields (the end of the list stands for the
read that reports the end of the body) and `time.Since(start)` in nanoseconds after
`resp.Body.Close()`. -/
structure Response where
  reads : List Read
  elapsed : Int
  deriving DecidableEq, Repr

/-- The outcomes of every external operation one measurement can perform. -/
structure World where
  /-- Outcome of `speedtest --accept-license --accept-gdpr -f json`: error text or output. -/
  ookla : Except String Stdout
  /-- Outcome of `speedtest-cli --json`. -/
  cli : Except String Stdout
  /-- Outcome of `http.Get url`: `none` when it returns an error. -/
  fetch : String → Option Response
  /-- Whether the lower-cased environment variable `OS` contains `windows`. -/
  windows : Bool
  /-- Outcome of the ping command for a target: `none` when it returns an error, else the
  text of its report. -/
  ping : String → Option (List Char)

/-! ## JSON access as Go performs it -/

/-- Indexing a decoded map, `m[k]`: the decoder keeps the last member with a given key;
`none` is the nil interface returned for an absent key. -/
def mapIndex (m : GoMap) (k : String) : Option JSON :=
  (m.reverse.find? fun kv => kv.1 == k).map Prod.snd

/-- The text of the decoder's error for a document that is not an object. -/
def typeMismatch (kind : String) : String :=
  "json: cannot unmarshal " ++ kind ++ " into Go value of type map[string]interface \x7b\x7d"

/-- Whether a number literal has a `float64`: the decoder converts it with
`strconv.ParseFloat`, which reports a value that rounds beyond the largest finite `float64`
as out of range. -/
def fitsFloat64 (x : ℚ) : Bool :=
  decide (-(2 ^ 1024 - 2 ^ 970) < x) && decide (x < 2 ^ 1024 - 2 ^ 970)

mutual
/-- Every number literal of the document, at any depth, has a `float64`. -/
def JSON.fits : JSON → Bool
  | .num x => fitsFloat64 x
  | .arr xs => fitsList xs
  | .obj kvs => fitsMembers kvs
  | _ => true
/-- Every number literal in the elements of an array has a `float64`. -/
def fitsList : List JSON → Bool
  | [] => true
  | v :: vs => v.fits && fitsList vs
/-- Every number literal in the members of an object has a `float64`. -/
def fitsMembers : List (String × JSON) → Bool
  | [] => true
  | kv :: kvs => kv.2.fits && fitsMembers kvs
end

mutual
/-- Nesting depth of a document: the largest number of arrays and objects open at once. -/
def JSON.depth : JSON → Nat
  | .arr xs => depthList xs + 1
  | .obj kvs => depthMembers kvs + 1
  | _ => 0
/-- Largest nesting depth among the elements of an array. -/
def depthList : List JSON → Nat
  | [] => 0
  | v :: vs => max v.depth (depthList vs)
/-- Largest nesting depth among the members of an object. -/
def depthMembers : List (String × JSON) → Nat
  | [] => 0
  | kv :: kvs => max kv.2.depth (depthMembers kvs)
end

/-- The decoder's limit on nesting, `maxNestingDepth` of `encoding/json`. -/
def maxNestingDepth : Nat := 10000

/-- The text of the decoder's error for a document nested beyond the limit (the decoder puts
the offending character before these words). -/
def depthError : String :=
  "exceeded max depth"

/-- The text of the decoder's error for a number literal outside `float64` (the text of the
literal, which the decoder quotes after the word number, is left out). -/
def rangeError : String :=
  "json: cannot unmarshal number into Go value of type float64"

/-- The error, if any, with which `json.Unmarshal` into a `map[string]interface{}` rejects a
JSON document as written. The syntax check comes first and refuses nesting beyond the limit.
Then the values of an object are decoded at every depth, and a number literal without a
`float64` among them is an error that `json.Unmarshal` returns; a document that is not an
object is not decoded further (`unmarshalMap` rejects it, `null` apart). -/
def decodeError (t : JSON) : Option String :=
  if t.depth > maxNestingDepth then some depthError
  else
    match t with
    | .obj kvs => if fitsMembers kvs then none else some rangeError
    | _ => none

/-- What the decoder reports for a JSON document as written. -/
def decodeDocument (t : JSON) : Stdout :=
  match decodeError t with
  | some e => .error e
  | none => .ok t

/-- The call `json.Unmarshal(output, &result)` with `result` of type `map[string]interface{}`,
on the decoder's report: a decoding error (bytes that are not JSON, nesting beyond the
limit, a number literal outside `float64`) is returned, a document that is not an object is
a type error, `null` leaves the map nil. -/
def unmarshalMap : Stdout → Except String GoMap
  | .error e => .error e
  | .ok (.obj kvs) => .ok kvs
  | .ok .null => .ok []
  | .ok (.bool _) => .error (typeMismatch "bool")
  | .ok (.num _) => .error (typeMismatch "number")
  | .ok (.str _) => .error (typeMismatch "string")
  | .ok (.arr _) => .error (typeMismatch "array")

/-- The assertion `v, _ := x.(float64)`: the number, or the zero value. -/
def assertFloat64 : Option JSON → ℚ
  | some (.num x) => x
  | _ => 0

/-- The assertion `v, _ := x.(map[string]interface{})`: the object, or the nil map. -/
def assertMap : Option JSON → GoMap
  | some (.obj kvs) => kvs
  | _ => []

/-- Member `k` of a document value: the member when the value is an object that has one,
nothing otherwise. This reads the report itself, independently of how the program walks
it. -/
def member (v : Option JSON) (k : String) : Option JSON :=
  match v with
  | some (.obj kvs) => mapIndex kvs k
  | _ => none

/-- The value found in a report by following member names from the top. -/
def path (out : Stdout) (ks : List String) : Option JSON :=
  ks.foldl member out.toOption

/-- The member paths `runOoklaSpeedtest` reads. -/
def ooklaPaths : List (List String) :=
  [["download", "bandwidth"], ["upload", "bandwidth"], ["ping", "latency"]]

/-- The member paths `runSpeedtestCLI` reads. -/
def cliPaths : List (List String) :=
  [["download"], ["upload"], ["ping"]]

/-- The report carries no negative number at any of the given paths. -/
def NonnegAt (out : Stdout) (paths : List (List String)) : Prop :=
  ∀ ks ∈ paths, ∀ x, path out ks = some (.num x) → 0 ≤ x

/-! ## Strategy executors -/

/-- Lines 66-89. -/
def runSpeedtestCLI (w : World) : Except String SpeedTestResult × List Event :=
  let ev := [Event.exec "speedtest-cli" ["--json"]]
  match w.cli with
  | .error err => (.error ("speedtest-cli failed: " ++ err), ev)
  | .ok output =>
    match unmarshalMap output with
    | .error err => (.error ("failed to parse speedtest-cli output: " ++ err), ev)
    | .ok result =>
      let download := assertFloat64 (mapIndex result "download")
      let upload := assertFloat64 (mapIndex result "upload")
      let ping := assertFloat64 (mapIndex result "ping")
      (.ok { Download := download, Upload := upload, Ping := ping }, ev)

/-- Lines 92-120. -/
def runOoklaSpeedtest (w : World) : Except String SpeedTestResult × List Event :=
  let ev := [Event.exec "speedtest" ["--accept-license", "--accept-gdpr", "-f", "json"]]
  match w.ookla with
  | .error err => (.error ("ookla speedtest failed: " ++ err), ev)
  | .ok output =>
    match unmarshalMap output with
    | .error err => (.error ("failed to parse ookla output: " ++ err), ev)
    | .ok result =>
      let downloadData := assertMap (mapIndex result "download")
      let uploadData := assertMap (mapIndex result "upload")
      let pingData := assertMap (mapIndex result "ping")
      let download := assertFloat64 (mapIndex downloadData "bandwidth")
      let upload := assertFloat64 (mapIndex uploadData "bandwidth")
      let ping := assertFloat64 (mapIndex pingData "latency")
      (.ok { Download := download * 8, Upload := upload * 8, Ping := ping }, ev)

/-! ## Reading the ping report -/

/-- The class `\s` of Go regular expressions: tab, line feed, form feed, carriage return,
space. -/
def isSpace (c : Char) : Bool :=
  c.toNat == 9 || c.toNat == 10 || c.toNat == 12 || c.toNat == 13 || c.toNat == 32

/-- The class `[\d.]`. -/
def isDigitOrDot (c : Char) : Bool :=
  c.isDigit || c == '.'

/-- Match a literal at the head of the text and return what follows it. -/
def literal : List Char → List Char → Option (List Char)
  | [], s => some s
  | _ :: _, [] => none
  | a :: p, b :: s => if a == b then literal p s else none

/-- The pattern of line 145, `avg[=/]\s*([\d.]+)`, anchored at the head of the text; the
value is the text of the capture group. Both repetitions are greedy and what follows each
cannot start with a character of its class, so no backtracking arises. -/
def matchAvgHere (s : List Char) : Option (List Char) :=
  match literal "avg".toList s with
  | some (c :: rest) =>
    if c == '=' || c == '/' then
      let cap := (rest.dropWhile isSpace).takeWhile isDigitOrDot
      if cap.isEmpty then none else some cap
    else none
  | _ => none

/-- The pattern of line 154, `Average\s*=\s*(\d+)ms`, anchored at the head of the text. -/
def matchAverageHere (s : List Char) : Option (List Char) :=
  match literal "Average".toList s with
  | some rest =>
    match rest.dropWhile isSpace with
    | c :: rest =>
      if c == '=' then
        let digits := rest.dropWhile isSpace
        let cap := digits.takeWhile Char.isDigit
        if cap.isEmpty then none
        else match literal "ms".toList (digits.dropWhile Char.isDigit) with
          | some _ => some cap
          | none => none
      else none
    | [] => none
  | none => none

/-- The capture group of the leftmost match, as `FindStringSubmatch` returns it in
`matches[1]`: the anchored matcher is tried at every position from the left. -/
def findSubmatch (m : List Char → Option (List Char)) : List Char → Option (List Char)
  | [] => m []
  | c :: s =>
    match m (c :: s) with
    | some cap => some cap
    | none => findSubmatch m s

/-- Value of a run of decimal digits. -/
def digitsValue (ds : List Char) : Nat :=
  ds.foldl (fun acc c => acc * 10 + (c.toNat - 48)) 0

/-- The range check of `strconv.ParseFloat`: a value that rounds beyond the largest finite
`float64` is reported as an error. -/
def inFloatRange (v : ℚ) : Option ℚ :=
  if v < 2 ^ 1024 - 2 ^ 970 then some v else none

/-- The call `strconv.ParseFloat(s, 64)` on the texts the two patterns can capture (digits
and dots): digits with at most one dot and at least one digit; anything else is a syntax
error (`none`). The value is exact: rounding to the nearest `float64`, and with it the
underflow of a tiny value to 0, is not represented. -/
def parseFloat (s : List Char) : Option ℚ :=
  let ip := s.takeWhile Char.isDigit
  match s.dropWhile Char.isDigit with
  | [] => if ip.isEmpty then none else inFloatRange (digitsValue ip)
  | c :: fp =>
    if c == '.' && fp.all Char.isDigit && !(ip.isEmpty && fp.isEmpty) then
      inFloatRange ((digitsValue (ip ++ fp) : ℚ) / 10 ^ fp.length)
    else none

/-- Lines 141-160: the value of `avgPing` after both report formats have been tried. -/
def pingAverage (outputStr : List Char) : ℚ :=
  let avgPing : ℚ :=
    match findSubmatch matchAvgHere outputStr with
    | some m =>
      match parseFloat m with
      | some val => val
      | none => 0
    | none => 0
  if avgPing == 0 then
    match findSubmatch matchAverageHere outputStr with
    | some m =>
      match parseFloat m with
      | some val => val
      | none => avgPing
    | none => avgPing
  else avgPing

/-- Arguments of the ping command, lines 129-133. -/
def pingArgs (w : World) (target : String) : List String :=
  if w.windows then ["-n", "4", target] else ["-c", "4", target]

/-- The loop of lines 127-165 over the remaining targets, `pings` being the slice
collected so far. -/
def pingLoop (w : World) : List String → List ℚ → List ℚ × List Event
  | [], pings => (pings, [])
  | target :: rest, pings =>
    let ev := Event.exec "ping" (pingArgs w target)
    match w.ping target with
    | none => ((pingLoop w rest pings).1, ev :: (pingLoop w rest pings).2)
    | some output =>
      let avgPing := pingAverage output
      let pings := if avgPing > 0 then pings ++ [avgPing] else pings
      ((pingLoop w rest pings).1, ev :: (pingLoop w rest pings).2)

/-- Lines 123-177. -/
def estimatePing (w : World) : ℚ × List Event :=
  let r := pingLoop w ["8.8.8.8", "1.1.1.1", "9.9.9.9"] []
  let pings := r.1
  if pings.length == 0 then (20, r.2)
  else (pings.foldl (fun sum p => sum + p) 0 / (pings.length : ℚ), r.2)

/-! ## HTTP download fallback -/

/-- Conversion to `int64`, wrapping around. -/
def wrapInt64 (x : Int) : Int :=
  (x + 2 ^ 63) % 2 ^ 64 - 2 ^ 63

/-- The duration `5*time.Second` in nanoseconds. -/
def fiveSeconds : Int := 5 * 1000000000

/-- The read loop of lines 197-207: the value of `totalBytes` when the loop is left. -/
def readLoop : List Read → Int → Int
  | [], totalBytes => totalBytes
  | r :: rest, totalBytes =>
    let totalBytes := wrapInt64 (totalBytes + r.n)
    if r.err then totalBytes
    else if r.elapsed > fiveSeconds then totalBytes
    else readLoop rest totalBytes

/-- The loop of lines 188-216 over the remaining URLs: the value of `downloadSpeed` after
the loop (it is assigned only where the loop is left by `break`). -/
def downloadLoop (w : World) : List String → ℚ × List Event
  | [] => (0, [])
  | url :: rest =>
    match w.fetch url with
    | none => ((downloadLoop w rest).1, Event.get url :: (downloadLoop w rest).2)
    | some resp =>
      let totalBytes := readLoop resp.reads 0
      let duration : ℚ := (resp.elapsed : ℚ) / 1000000000
      if duration > 0 && totalBytes > 0 then
        ((totalBytes : ℚ) * 8 / duration, [Event.get url])
      else ((downloadLoop w rest).1, Event.get url :: (downloadLoop w rest).2)

/-- The URLs of lines 182-185. -/
def testURLs : List String :=
  ["https://speed.cloudflare.com/__down?bytes=10000000",
   "https://www.google.com/images/branding/googlelogo/2x/googlelogo_color_272x92dp.png"]

/-- The placeholder of line 220, `50 * 1024 * 1024`. -/
def placeholderSpeed : ℚ := 50 * 1024 * 1024

/-- Lines 180-228. -/
def performHTTPSpeedTest (w : World) : Except String SpeedTestResult × List Event :=
  let d := downloadLoop w testURLs
  let downloadSpeed := if d.1 == 0 then placeholderSpeed else d.1
  let p := estimatePing w
  (.ok { Download := downloadSpeed, Upload := downloadSpeed * (3 / 10), Ping := p.1 },
    d.2 ++ p.2)

/-! ## Fallback orchestrator -/

/-- Lines 230-252. -/
def performSpeedTest (w : World) : Except String SpeedTestResult × List Event :=
  let start := [Event.call "performSpeedTest"]
  let o := runOoklaSpeedtest w
  match o.1 with
  | .ok result =>
    (.ok result, start ++ o.2 ++ [Event.log "Speed test completed using Ookla CLI"])
  | .error err =>
    let ev := start ++ o.2 ++ [Event.log ("Ookla speedtest failed: " ++ err)]
    let c := runSpeedtestCLI w
    match c.1 with
    | .ok result =>
      (.ok result, ev ++ c.2 ++ [Event.log "Speed test completed using speedtest-cli"])
    | .error err =>
      let ev := ev ++ c.2 ++ [Event.log ("speedtest-cli failed: " ++ err),
        Event.log "Using HTTP fallback speed test"]
      let h := performHTTPSpeedTest w
      (h.1, ev ++ h.2)

/-! ## Cache, single-flight guard and gauges -/

/-- The package-level variables of lines 20-50 that the handlers read and write: the cache,
the guard flag, and the values of the four exported gauges (a labelled gauge has no value
before its first `Set`). -/
structure State where
  resultCache : Option SpeedTestResult
  lastTestTime : Int
  testInProgress : Bool
  downstream : Option ℚ
  upstream : Option ℚ
  ping : ℚ
  up : ℚ
  deriving DecidableEq, Repr

/-- The variables at program start: no cache entry, the zero `time.Time` (an instant `zero`
on the nanosecond scale), guard free, gauges unset. -/
def State.initial (zero : Int) : State :=
  { resultCache := none, lastTestTime := zero, testInProgress := false,
    downstream := none, upstream := none, ping := 0, up := 0 }

/-- Lines 255-261, executed under `testMutex`: test the flag and set it. The first component
tells whether the caller goes on (`true`) or returns at line 258 (`false`). -/
def tryStart (s : State) : Bool × State :=
  if s.testInProgress then (false, s)
  else (true, { s with testInProgress := true })

/-- Lines 263-267, the deferred function, executed under `testMutex`. -/
def release (s : State) : State :=
  { s with testInProgress := false }

/-- Lines 272-291: what `updateMetrics` does with the outcome of `performSpeedTest`, `now`
being the value of `time.Now()` at line 281. The figures of the last log line are left
out. -/
def record (outcome : Except String SpeedTestResult) (now : Int) (s : State) :
    State × List Event :=
  match outcome with
  | .error err => ({ s with up := 0 }, [Event.log ("Speed test failed: " ++ err)])
  | .ok result =>
    ({ s with
        resultCache := some result, lastTestTime := now,
        downstream := some result.Download, upstream := some result.Upload,
        ping := result.Ping, up := 1 },
      [Event.log "Speed test completed"])

/-- Lines 254-292 as one uninterrupted call, for a given behaviour `test` of the call to
`performSpeedTest` at line 270 (its outcome and the events it causes). -/
def updateMetricsWith (test : Except String SpeedTestResult × List Event) (now : Int)
    (s : State) : State × List Event :=
  let ev := [Event.call "updateMetrics"]
  let g := tryStart s
  if g.1 then
    let r := record test.1 now g.2
    (release r.1, ev ++ [Event.log "Starting speed test..."] ++ test.2 ++ r.2)
  else (g.2, ev)

/-- Lines 254-292 as one uninterrupted call. -/
def updateMetrics (w : World) (now : Int) (s : State) : State × List Event :=
  updateMetricsWith (performSpeedTest w) now s

/-- Largest `time.Duration`. -/
def maxDuration : Int := 2 ^ 63 - 1

/-- Smallest `time.Duration`. -/
def minDuration : Int := -(2 ^ 63)

/-- The call `time.Since(t)` at instant `now`: the difference, saturated to the range of
`time.Duration`. -/
def timeSince (now t : Int) : Int :=
  if now - t > maxDuration then maxDuration
  else if now - t < minDuration then minDuration
  else now - t

/-- The duration `30*time.Minute` in nanoseconds. -/
def thirtyMinutes : Int := 30 * (60 * 1000000000)

/-- What a scrape is served: the values of the four gauges. -/
structure Scrape where
  downstream : Option ℚ
  upstream : Option ℚ
  ping : ℚ
  up : ℚ
  deriving DecidableEq, Repr

/-- The registry contents written by `promhttp.Handler().ServeHTTP`. -/
def serve (s : State) : Scrape :=
  { downstream := s.downstream, upstream := s.upstream, ping := s.ping, up := s.up }

/-- Result of one request to the scrape handler. -/
structure Handled where
  state : State
  body : Scrape
  events : List Event

/-- Lines 295-312 as one uninterrupted request arriving at instant `now`; `stored` is the
value of `time.Now()` at line 281 should the cache be written. -/
def metricsHandler (w : World) (now stored : Int) (s : State) : Handled :=
  let timeSinceLastTest := timeSince now s.lastTestTime
  let cached := s.resultCache
  if cached.isNone || timeSinceLastTest > thirtyMinutes then
    let u := updateMetrics w stored s
    { state := u.1, body := serve u.1, events := u.2 }
  else { state := s, body := serve s, events := [] }

/-! ## Concurrent callers of `updateMetrics` -/

/-- Where a caller is in `updateMetrics`: not in a call; called and about to run the
test-and-set of lines 255-261; past a successful test-and-set with `performSpeedTest` in
flight (line 270); `performSpeedTest` returned, lines 272-291 done, deferred reset still
to run. -/
inductive Pc where
  | idle : Pc
  | entry : Pc
  | testing : Pc
  | recording : Pc
  deriving DecidableEq, Repr

/-- A goroutine that calls `updateMetrics`, with the number of `performSpeedTest` runs it
has begun. -/
structure Caller where
  pc : Pc
  tests : Nat
  deriving DecidableEq, Repr

/-- A caller is between its successful acquisition of the guard and its release. -/
def Caller.holds (c : Caller) : Bool :=
  c.pc == Pc.testing || c.pc == Pc.recording

/-- A caller has `performSpeedTest` in flight. -/
def Caller.inTest (c : Caller) : Bool :=
  c.pc == Pc.testing

/-- The shared variables and the callers. -/
structure Sys where
  shared : State
  callers : List Caller

/-- One scheduling decision: which caller moves, and, should the move be the completion of
its `performSpeedTest`, the outcome of that test and the clock reading of line 281. -/
structure Move where
  caller : Nat
  outcome : Except String SpeedTestResult
  now : Int

/-- The atomic step of one caller on the shared variables. Lines 269-291, which never
touch the flag, are taken as a single step at the completion of `performSpeedTest`. -/
def stepCaller (outcome : Except String SpeedTestResult) (now : Int) (shared : State)
    (c : Caller) : State × Caller :=
  match c.pc with
  | .idle => (shared, { c with pc := .entry })
  | .entry =>
    if (tryStart shared).1 then
      ((tryStart shared).2, { pc := .testing, tests := c.tests + 1 })
    else ((tryStart shared).2, { c with pc := .idle })
  | .testing => ((record outcome now shared).1, { c with pc := .recording })
  | .recording => (release shared, { c with pc := .idle })

/-- One step of the system; a move naming no caller changes nothing. -/
def step (m : Move) (σ : Sys) : Sys :=
  match σ.callers[m.caller]? with
  | none => σ
  | some c =>
    let r := stepCaller m.outcome m.now σ.shared c
    { shared := r.1, callers := σ.callers.set m.caller r.2 }

/-- The state reached by an interleaving, given as the sequence of moves. -/
def run (sched : List Move) (σ : Sys) : Sys :=
  sched.foldl (fun acc m => step m acc) σ

/-- The system with `n` callers, none of them in a call. -/
def start (s : State) (n : Nat) : Sys :=
  { shared := s, callers := List.replicate n { pc := .idle, tests := 0 } }

/-- Number of callers between acquisition and release. -/
def holders (σ : Sys) : Nat :=
  σ.callers.countP Caller.holds

/-- Number of `performSpeedTest` runs in flight. -/
def inFlight (σ : Sys) : Nat :=
  σ.callers.countP Caller.inTest

/-- The guard invariant: the flag is set exactly when one caller holds the guard, and no
more than one ever does. -/
def GuardInv (σ : Sys) : Prop :=
  holders σ = if σ.shared.testInProgress then 1 else 0

/-! ## Example worlds -/

/-- Every external operation fails. -/
def offline : World :=
  { ookla := .error "exec: not found", cli := .error "exec: not found",
    fetch := fun _ => none, windows := false, ping := fun _ => none }

/-- The primary tool is missing, the legacy tool reports 1000 and 500 bits per second and a
ping of 12 ms. -/
def legacyOnly : World :=
  { offline with
    cli := .ok (.ok (.obj [("download", .num 1000), ("upload", .num 500),
      ("ping", .num 12)])) }

/-- The primary tool reports 100 and 50 bytes per second and a latency of 12 ms. -/
def ooklaReport : World :=
  { offline with
    ookla := .ok (.ok (.obj [("download", .obj [("bandwidth", .num 100)]),
      ("upload", .obj [("bandwidth", .num 50)]), ("ping", .obj [("latency", .num 12)])])) }

/-- Both tools are missing; the first endpoint is unreachable and the second answers with an
empty body; no ping target answers. -/
def emptyBodies : World :=
  { offline with
    fetch := fun url =>
      if url == "https://speed.cloudflare.com/__down?bytes=10000000" then none
      else some { reads := [{ n := 0, err := true, elapsed := 1000 }], elapsed := 2000 } }

/-- Both tools exit successfully with output that is not JSON. -/
def garbled : World :=
  { offline with
    ookla := .ok (.error "unexpected end of JSON input"),
    cli := .ok (.error "unexpected end of JSON input") }

/-- The primary tool is missing; the legacy tool reports a download rate, a text where the
upload rate should be, and no ping. -/
def partialReport : World :=
  { offline with
    cli := .ok (decodeDocument (.obj [("download", .num 1000), ("upload", .str "fast")])) }

/-- The primary tool is missing; the legacy tool reports the download rate `1e999`, a
number literal outside `float64`. -/
def overflowReport : World :=
  { offline with
    cli := .ok (decodeDocument (.obj [("download", .num (10 ^ 999)), ("upload", .num 500),
      ("ping", .num 12)])) }

/-- The primary tool is missing; the legacy tool reports a negative download rate. -/
def negativeReport : World :=
  { offline with
    cli := .ok (.ok (.obj [("download", .num (-1)), ("upload", .num 500),
      ("ping", .num 12)])) }

/-- The summary line of the Linux and Mac ping reports quoted at line 144. -/
def linuxSummary : List Char :=
  "rtt min/avg/max/mdev = 10.1/20.2/30.3/1.0 ms".toList

/-- The summary line of the Windows ping report. -/
def windowsSummary : List Char :=
  "    Minimum = 10ms, Maximum = 30ms, Average = 20ms".toList

/-- Both tools are missing and no endpoint answers; the first ping target answers with the
Linux summary line, the other two fail. -/
def linuxPing : World :=
  { offline with
    ping := fun target => if target == "8.8.8.8" then some linuxSummary else none }

/-- A cache entry measured at instant 1000 with the guard free. -/
def cachedState : State :=
  { resultCache := some { Download := 800, Upload := 400, Ping := 12 },
    lastTestTime := 1000, testInProgress := false,
    downstream := some 800, upstream := some 400, ping := 12, up := 1 }

/-- An interleaving of three callers: caller 0 enters and acquires the guard, caller 1
enters and tests the flag while caller 0 is testing, caller 2 enters. -/
def contended : List Move :=
  [{ caller := 0, outcome := .error "", now := 0 },
   { caller := 0, outcome := .error "", now := 0 },
   { caller := 1, outcome := .error "", now := 0 },
   { caller := 2, outcome := .error "", now := 0 }]

/-! ## Properties -/

theorem mapIndex_nil (k : String) : mapIndex [] k = none := rfl

theorem assertFloat64_member (v : Option JSON) (k : String) :
    assertFloat64 (mapIndex (assertMap v) k) = assertFloat64 (member v k) := by
  unfold assertMap member
  split <;> simp_all [mapIndex_nil]

theorem runOoklaSpeedtest_events (w : World) :
    (runOoklaSpeedtest w).2 =
      [Event.exec "speedtest" ["--accept-license", "--accept-gdpr", "-f", "json"]] := by
  unfold runOoklaSpeedtest
  cases w.ookla with
  | error e => rfl
  | ok out => cases h : unmarshalMap out <;> simp [h]

theorem runSpeedtestCLI_events (w : World) :
    (runSpeedtestCLI w).2 = [Event.exec "speedtest-cli" ["--json"]] := by
  unfold runSpeedtestCLI
  cases w.cli with
  | error e => rfl
  | ok out => cases h : unmarshalMap out <;> simp [h]

theorem performHTTPSpeedTest_ok (w : World) :
    ∃ r, (performHTTPSpeedTest w).1 = .ok r := ⟨_, rfl⟩

/-- C2 (fallback ordering): `performSpeedTest` runs the strategies in the order Ookla,
speedtest-cli, HTTP and stops at the first success. If Ookla succeeds with `r`, the result
is `r` and only the Ookla command was executed; if Ookla fails and speedtest-cli succeeds
with `r`, the result is `r` with no error, the Ookla failure is only logged, and no HTTP
request or ping was made; if both fail the HTTP fallback runs last and its result is
returned. -/
theorem performSpeedTest_fallback_order (w : World) (r : SpeedTestResult) :
    ((runOoklaSpeedtest w).1 = .ok r →
      performSpeedTest w =
        (.ok r,
          [Event.call "performSpeedTest",
           Event.exec "speedtest" ["--accept-license", "--accept-gdpr", "-f", "json"],
           Event.log "Speed test completed using Ookla CLI"])) ∧
    (∀ e, (runOoklaSpeedtest w).1 = .error e → (runSpeedtestCLI w).1 = .ok r →
      performSpeedTest w =
        (.ok r,
          [Event.call "performSpeedTest",
           Event.exec "speedtest" ["--accept-license", "--accept-gdpr", "-f", "json"],
           Event.log ("Ookla speedtest failed: " ++ e),
           Event.exec "speedtest-cli" ["--json"],
           Event.log "Speed test completed using speedtest-cli"])) ∧
    (∀ e e2, (runOoklaSpeedtest w).1 = .error e → (runSpeedtestCLI w).1 = .error e2 →
      performSpeedTest w =
        ((performHTTPSpeedTest w).1,
          [Event.call "performSpeedTest",
           Event.exec "speedtest" ["--accept-license", "--accept-gdpr", "-f", "json"],
           Event.log ("Ookla speedtest failed: " ++ e),
           Event.exec "speedtest-cli" ["--json"],
           Event.log ("speedtest-cli failed: " ++ e2),
           Event.log "Using HTTP fallback speed test"] ++ (performHTTPSpeedTest w).2)) := by
  refine ⟨?_, ?_, ?_⟩
  · intro h
    simp [performSpeedTest, h, runOoklaSpeedtest_events]
  · intro e h1 h2
    simp [performSpeedTest, h1, h2, runOoklaSpeedtest_events, runSpeedtestCLI_events]
  · intro e e2 h1 h2
    simp [performSpeedTest, h1, h2, runOoklaSpeedtest_events, runSpeedtestCLI_events]

/-- Witness for C2: with the primary tool missing and the legacy tool reporting, the
orchestrator returns the legacy result after exactly two command executions. -/
theorem performSpeedTest_fallback_order_witness :
    (runOoklaSpeedtest legacyOnly).1 = .error "ookla speedtest failed: exec: not found" ∧
    (runSpeedtestCLI legacyOnly).1 = .ok { Download := 1000, Upload := 500, Ping := 12 } ∧
    performSpeedTest legacyOnly =
      (.ok { Download := 1000, Upload := 500, Ping := 12 },
        [Event.call "performSpeedTest",
         Event.exec "speedtest" ["--accept-license", "--accept-gdpr", "-f", "json"],
         Event.log ("Ookla speedtest failed: " ++ "ookla speedtest failed: exec: not found"),
         Event.exec "speedtest-cli" ["--json"],
         Event.log "Speed test completed using speedtest-cli"]) :=
  ⟨rfl, rfl,
    (performSpeedTest_fallback_order legacyOnly
      { Download := 1000, Upload := 500, Ping := 12 }).2.1 _ rfl rfl⟩

theorem performSpeedTest_result (w : World) :
    (performSpeedTest w).1 =
      match (runOoklaSpeedtest w).1 with
      | .ok r => .ok r
      | .error _ =>
        match (runSpeedtestCLI w).1 with
        | .ok r => .ok r
        | .error _ => (performHTTPSpeedTest w).1 := by
  cases h1 : (runOoklaSpeedtest w).1 with
  | ok r => simp [performSpeedTest, h1]
  | error e =>
    cases h2 : (runSpeedtestCLI w).1 with
    | ok r => simp [performSpeedTest, h1, h2]
    | error e2 => simp [performSpeedTest, h1, h2]

theorem downloadLoop_zero (w : World) (urls : List String)
    (h : ∀ url ∈ urls, ∀ resp, w.fetch url = some resp → readLoop resp.reads 0 ≤ 0) :
    (downloadLoop w urls).1 = 0 := by
  induction urls with
  | nil => rfl
  | cons url rest ih =>
    have hrest : (downloadLoop w rest).1 = 0 :=
      ih (fun u hu resp hr => h u (List.mem_cons_of_mem _ hu) resp hr)
    unfold downloadLoop
    cases hf : w.fetch url with
    | none => simpa using hrest
    | some resp =>
      have hb : ¬ (0 < readLoop resp.reads 0) :=
        not_lt.mpr (h url (List.mem_cons_self _ _) resp hf)
      simp [hb, hrest]

theorem performHTTPSpeedTest_placeholder (w : World)
    (h : ∀ url ∈ testURLs, ∀ resp, w.fetch url = some resp → readLoop resp.reads 0 ≤ 0) :
    ∃ r, (performHTTPSpeedTest w).1 = .ok r ∧ r.Download = 50 * 1024 * 1024 ∧
      r.Upload = 3 / 10 * (50 * 1024 * 1024) := by
  refine ⟨_, rfl, ?_, ?_⟩
  · simp [downloadLoop_zero w testURLs h, placeholderSpeed]
  · simp [downloadLoop_zero w testURLs h, placeholderSpeed]
    norm_num

/-- C3 (terminal fallback guarantee): whatever the outcomes of the two commands, of the
downloads and of the pings, `performSpeedTest` returns a result and no error. When both
commands fail and no endpoint yields a positive byte count, the result has `Download` equal
to the placeholder `50 * 1024 * 1024` and `Upload` equal to 0.3 times the placeholder. -/
theorem performSpeedTest_terminal_fallback (w : World) :
    (∃ r, (performSpeedTest w).1 = .ok r) ∧
    (∀ e e2, (runOoklaSpeedtest w).1 = .error e → (runSpeedtestCLI w).1 = .error e2 →
      (∀ url ∈ testURLs, ∀ resp, w.fetch url = some resp → readLoop resp.reads 0 ≤ 0) →
      ∃ r, (performSpeedTest w).1 = .ok r ∧ r.Download = 50 * 1024 * 1024 ∧
        r.Upload = 3 / 10 * (50 * 1024 * 1024)) := by
  constructor
  · rw [performSpeedTest_result]
    cases h1 : (runOoklaSpeedtest w).1 with
    | ok r => exact ⟨r, rfl⟩
    | error e =>
      cases h2 : (runSpeedtestCLI w).1 with
      | ok r => exact ⟨r, rfl⟩
      | error e2 => exact performHTTPSpeedTest_ok w
  · intro e e2 h1 h2 h
    rw [performSpeedTest_result, h1]
    simp only [h2]
    exact performHTTPSpeedTest_placeholder w h

/-- Witness for C3: with both tools missing, one endpoint unreachable and the other
answering with an empty body, the result carries the placeholder rates. -/
theorem performSpeedTest_terminal_fallback_witness :
    (runOoklaSpeedtest emptyBodies).1 = .error "ookla speedtest failed: exec: not found" ∧
    (runSpeedtestCLI emptyBodies).1 = .error "speedtest-cli failed: exec: not found" ∧
    (∀ url ∈ testURLs, ∀ resp, emptyBodies.fetch url = some resp →
      readLoop resp.reads 0 ≤ 0) ∧
    ∃ r, (performSpeedTest emptyBodies).1 = .ok r ∧ r.Download = 50 * 1024 * 1024 ∧
      r.Upload = 3 / 10 * (50 * 1024 * 1024) := by
  have hz : ∀ url ∈ testURLs, ∀ resp, emptyBodies.fetch url = some resp →
      readLoop resp.reads 0 ≤ 0 := by
    intro url _ resp hr
    simp only [emptyBodies] at hr
    split at hr
    · cases hr
    · cases hr
      decide
  exact ⟨rfl, rfl, hz, (performSpeedTest_terminal_fallback emptyBodies).2 _ _ rfl rfl hz⟩

theorem runOoklaSpeedtest_object (w : World) (doc : GoMap)
    (h : w.ookla = .ok (.ok (.obj doc))) :
    (runOoklaSpeedtest w).1 =
      .ok { Download := assertFloat64 (path (.ok (.obj doc)) ["download", "bandwidth"]) * 8,
            Upload := assertFloat64 (path (.ok (.obj doc)) ["upload", "bandwidth"]) * 8,
            Ping := assertFloat64 (path (.ok (.obj doc)) ["ping", "latency"]) } := by
  simp [runOoklaSpeedtest, h, unmarshalMap, assertFloat64_member, path, member,
    Except.toOption]

theorem runSpeedtestCLI_object (w : World) (doc : GoMap)
    (h : w.cli = .ok (.ok (.obj doc))) :
    (runSpeedtestCLI w).1 =
      .ok { Download := assertFloat64 (path (.ok (.obj doc)) ["download"]),
            Upload := assertFloat64 (path (.ok (.obj doc)) ["upload"]),
            Ping := assertFloat64 (path (.ok (.obj doc)) ["ping"]) } := by
  simp [runSpeedtestCLI, h, unmarshalMap, path, member, Except.toOption]

theorem object_of_path (out : Stdout) (k : String) (ks : List String) (v : JSON)
    (h : path out (k :: ks) = some v) : ∃ doc, out = .ok (.obj doc) := by
  have hnone : ∀ l : List String, l.foldl member none = none := by
    intro l
    induction l with
    | nil => rfl
    | cons a l ih => simpa [List.foldl, member] using ih
  match out with
  | .ok (.obj doc) => exact ⟨doc, rfl⟩
  | .error _ => simp [path, List.foldl, member, hnone, Except.toOption] at h
  | .ok .null => simp [path, List.foldl, member, hnone, Except.toOption] at h
  | .ok (.bool _) => simp [path, List.foldl, member, hnone, Except.toOption] at h
  | .ok (.num _) => simp [path, List.foldl, member, hnone, Except.toOption] at h
  | .ok (.str _) => simp [path, List.foldl, member, hnone, Except.toOption] at h
  | .ok (.arr _) => simp [path, List.foldl, member, hnone, Except.toOption] at h

/-- C7 (unit normalization): for every report of the Ookla tool with `download.bandwidth`
`d`, `upload.bandwidth` `u` (bytes per second) and `ping.latency` `p`, `runOoklaSpeedtest`
and `performSpeedTest` return `Download = 8 * d`, `Upload = 8 * u` and `Ping = p`. -/
theorem runOoklaSpeedtest_unit_normalization (w : World) (out : Stdout) (d u p : ℚ)
    (hout : w.ookla = .ok out)
    (hd : path out ["download", "bandwidth"] = some (.num d))
    (hu : path out ["upload", "bandwidth"] = some (.num u))
    (hp : path out ["ping", "latency"] = some (.num p)) :
    (runOoklaSpeedtest w).1 = .ok { Download := 8 * d, Upload := 8 * u, Ping := p } ∧
    (performSpeedTest w).1 = .ok { Download := 8 * d, Upload := 8 * u, Ping := p } := by
  obtain ⟨doc, rfl⟩ := object_of_path out _ _ _ hd
  have h := runOoklaSpeedtest_object w doc hout
  rw [hd, hu, hp] at h
  have h2 : (runOoklaSpeedtest w).1 =
      .ok { Download := 8 * d, Upload := 8 * u, Ping := p } := by
    rw [h]
    simp [assertFloat64, mul_comm]
  refine ⟨h2, ?_⟩
  rw [performSpeedTest_result, h2]

/-- Witness for C7: the report of 100 and 50 bytes per second gives 800 and 400 bits per
second. -/
theorem runOoklaSpeedtest_unit_normalization_witness :
    ooklaReport.ookla =
      .ok (.ok (.obj [("download", .obj [("bandwidth", .num 100)]),
        ("upload", .obj [("bandwidth", .num 50)]),
        ("ping", .obj [("latency", .num 12)])])) ∧
    (runOoklaSpeedtest ooklaReport).1 = .ok { Download := 800, Upload := 400, Ping := 12 } ∧
    (performSpeedTest ooklaReport).1 = .ok { Download := 800, Upload := 400, Ping := 12 } := by
  have h := runOoklaSpeedtest_unit_normalization ooklaReport _ 100 50 12 rfl rfl rfl rfl
  norm_num at h
  exact ⟨rfl, h.1, h.2⟩

theorem assertFloat64_of_not_num (v : Option JSON) (h : ∀ x, v ≠ some (.num x)) :
    assertFloat64 v = 0 := by
  unfold assertFloat64
  split
  · exact absurd rfl (h _)
  · rfl

theorem assertFloat64_nonneg (v : Option JSON) (h : ∀ x, v = some (.num x) → 0 ≤ x) :
    0 ≤ assertFloat64 v := by
  unfold assertFloat64
  split
  · exact h _ rfl
  · exact le_refl 0

/-- C8, refuted as stated: a tool that exits successfully with output that is not JSON makes
both CLI strategies fail with a parse error instead of returning zero-valued fields. -/
theorem permissive_parsing_malformed_fails :
    (runOoklaSpeedtest garbled).1 =
      .error "failed to parse ookla output: unexpected end of JSON input" ∧
    (runSpeedtestCLI garbled).1 =
      .error "failed to parse speedtest-cli output: unexpected end of JSON input" :=
  ⟨rfl, rfl⟩

theorem decodeDocument_accepted (t : JSON) (h : decodeError t = none) :
    decodeDocument t = .ok t := by
  simp [decodeDocument, h]

theorem decodeDocument_rejected (t : JSON) (e : String) (h : decodeError t = some e) :
    decodeDocument t = .error e := by
  simp [decodeDocument, h]

/-- C8 (permissive parsing, amended): when a CLI tool exits successfully and its output is a
JSON object that `json.Unmarshal` accepts (no number literal outside `float64`, nesting
within the decoder's limit), the strategy returns a result and no error, and every field
whose member is missing or is not a number is 0. Output that `json.Unmarshal` rejects,
because the document carries a number literal outside `float64` or is nested too deep, or
because the bytes are not a JSON document, makes the strategy fail with the decoder's error
wrapped as a parse error. -/
theorem permissive_parsing_of_objects (w : World) :
    (∀ doc, decodeError (.obj doc) = none → w.cli = .ok (decodeDocument (.obj doc)) →
      ∃ r, (runSpeedtestCLI w).1 = .ok r ∧
        ((∀ x, path (.ok (.obj doc)) ["download"] ≠ some (.num x)) → r.Download = 0) ∧
        ((∀ x, path (.ok (.obj doc)) ["upload"] ≠ some (.num x)) → r.Upload = 0) ∧
        ((∀ x, path (.ok (.obj doc)) ["ping"] ≠ some (.num x)) → r.Ping = 0)) ∧
    (∀ doc, decodeError (.obj doc) = none → w.ookla = .ok (decodeDocument (.obj doc)) →
      ∃ r, (runOoklaSpeedtest w).1 = .ok r ∧
        ((∀ x, path (.ok (.obj doc)) ["download", "bandwidth"] ≠ some (.num x)) →
          r.Download = 0) ∧
        ((∀ x, path (.ok (.obj doc)) ["upload", "bandwidth"] ≠ some (.num x)) →
          r.Upload = 0) ∧
        ((∀ x, path (.ok (.obj doc)) ["ping", "latency"] ≠ some (.num x)) → r.Ping = 0)) ∧
    (∀ t e, decodeError t = some e → w.cli = .ok (decodeDocument t) →
      (runSpeedtestCLI w).1 = .error ("failed to parse speedtest-cli output: " ++ e)) ∧
    (∀ t e, decodeError t = some e → w.ookla = .ok (decodeDocument t) →
      (runOoklaSpeedtest w).1 = .error ("failed to parse ookla output: " ++ e)) ∧
    (∀ doc, fitsMembers doc = false → JSON.depth (.obj doc) ≤ maxNestingDepth →
      decodeError (.obj doc) = some rangeError) ∧
    (∀ doc, fitsMembers doc = true → JSON.depth (.obj doc) ≤ maxNestingDepth →
      decodeError (.obj doc) = none) ∧
    (∀ e, w.cli = .ok (.error e) →
      (runSpeedtestCLI w).1 = .error ("failed to parse speedtest-cli output: " ++ e)) ∧
    (∀ e, w.ookla = .ok (.error e) →
      (runOoklaSpeedtest w).1 = .error ("failed to parse ookla output: " ++ e)) := by
  refine ⟨?_, ?_, ?_, ?_, ?_, ?_, ?_, ?_⟩
  · intro doc hacc h
    rw [decodeDocument_accepted _ hacc] at h
    refine ⟨_, runSpeedtestCLI_object w doc h, ?_, ?_, ?_⟩ <;>
      exact fun hx => assertFloat64_of_not_num _ hx
  · intro doc hacc h
    rw [decodeDocument_accepted _ hacc] at h
    refine ⟨_, runOoklaSpeedtest_object w doc h, ?_, ?_, ?_⟩
    · intro hx
      simp [assertFloat64_of_not_num _ hx]
    · intro hx
      simp [assertFloat64_of_not_num _ hx]
    · exact fun hx => assertFloat64_of_not_num _ hx
  · intro t e hrej h
    rw [decodeDocument_rejected _ _ hrej] at h
    simp [runSpeedtestCLI, h, unmarshalMap]
  · intro t e hrej h
    rw [decodeDocument_rejected _ _ hrej] at h
    simp [runOoklaSpeedtest, h, unmarshalMap]
  · intro doc hfit hdepth
    simp [decodeError, hfit, Nat.not_lt.mpr hdepth]
  · intro doc hfit hdepth
    simp [decodeError, hfit, Nat.not_lt.mpr hdepth]
  · intro e h
    simp [runSpeedtestCLI, h, unmarshalMap]
  · intro e h
    simp [runOoklaSpeedtest, h, unmarshalMap]

/-- Witness for C8 as amended: a legacy report with a text for the upload rate and no ping
yields a result whose upload and ping are 0; a legacy report whose download rate is the
literal `1e999` fails the strategy. -/
theorem permissive_parsing_of_objects_witness :
    decodeError (.obj [("download", .num 1000), ("upload", .str "fast")]) = none ∧
    (∃ r, (runSpeedtestCLI partialReport).1 = .ok r ∧ r.Upload = 0 ∧ r.Ping = 0) ∧
    decodeError (.obj [("download", .num (10 ^ 999)), ("upload", .num 500),
      ("ping", .num 12)]) = some rangeError ∧
    (runSpeedtestCLI overflowReport).1 =
      .error ("failed to parse speedtest-cli output: " ++ rangeError) := by
  have hacc : decodeError (.obj [("download", .num 1000), ("upload", .str "fast")])
      = none := by
    simp [decodeError, JSON.depth, depthMembers, maxNestingDepth, fitsMembers, JSON.fits,
      fitsFloat64]
    norm_num
  have hrej : decodeError (.obj [("download", .num (10 ^ 999)), ("upload", .num 500),
      ("ping", .num 12)]) = some rangeError := by
    simp [decodeError, JSON.depth, depthMembers, maxNestingDepth, fitsMembers, JSON.fits,
      fitsFloat64]
    norm_num
  obtain ⟨r, hr, _, hu, hp⟩ := (permissive_parsing_of_objects partialReport).1 _ hacc rfl
  refine ⟨hacc, ⟨r, hr, hu ?_, hp ?_⟩, hrej,
    (permissive_parsing_of_objects overflowReport).2.2.1 _ _ hrej rfl⟩
  · intro x hx
    have h : path (.ok (.obj [("download", .num 1000), ("upload", .str "fast")])) ["upload"]
        = some (.str "fast") := rfl
    rw [h] at hx
    cases hx
  · intro x hx
    have h : path (.ok (.obj [("download", .num 1000), ("upload", .str "fast")])) ["ping"]
        = none := rfl
    rw [h] at hx
    cases hx

theorem downloadLoop_nonneg (w : World) (urls : List String) :
    0 ≤ (downloadLoop w urls).1 := by
  induction urls with
  | nil => exact le_refl 0
  | cons url rest ih =>
    unfold downloadLoop
    cases hf : w.fetch url with
    | none => simpa using ih
    | some resp =>
      simp only
      split
      · rename_i hc
        simp only [Bool.and_eq_true, decide_eq_true_eq] at hc
        have hb : (0 : ℚ) < (readLoop resp.reads 0 : ℚ) := by exact_mod_cast hc.2
        have hd : (0 : ℚ) < (resp.elapsed : ℚ) / 1000000000 := hc.1
        positivity
      · simpa using ih

theorem pingLoop_pos (w : World) (targets : List String) :
    ∀ pings : List ℚ, (∀ p ∈ pings, 0 < p) → ∀ p ∈ (pingLoop w targets pings).1, 0 < p := by
  induction targets with
  | nil => intro pings h; simpa [pingLoop] using h
  | cons t rest ih =>
    intro pings h
    unfold pingLoop
    cases hp : w.ping t with
    | none => simpa using ih pings h
    | some output =>
      simp only
      apply ih
      split
      · rename_i hpos
        intro p hmem
        rcases List.mem_append.mp hmem with h1 | h1
        · exact h p h1
        · rw [List.mem_singleton.mp h1]
          exact hpos
      · exact h

theorem foldl_add_nonneg (l : List ℚ) :
    ∀ acc : ℚ, 0 ≤ acc → (∀ p ∈ l, 0 < p) → 0 ≤ l.foldl (fun sum p => sum + p) acc := by
  induction l with
  | nil => intro acc h _; simpa using h
  | cons a l ih =>
    intro acc h hl
    simp only [List.foldl_cons]
    apply ih
    · have := hl a (List.mem_cons_self _ _)
      linarith
    · exact fun p hp => hl p (List.mem_cons_of_mem _ hp)

theorem estimatePing_nonneg (w : World) : 0 ≤ (estimatePing w).1 := by
  unfold estimatePing
  simp only
  split
  · norm_num
  · apply div_nonneg
    · exact foldl_add_nonneg _ 0 (le_refl 0)
        (pingLoop_pos w _ [] (fun p hp => absurd hp (List.not_mem_nil p)))
    · exact Nat.cast_nonneg _

theorem performHTTPSpeedTest_nonneg (w : World) :
    ∃ r, (performHTTPSpeedTest w).1 = .ok r ∧ 0 ≤ r.Download ∧ 0 ≤ r.Upload ∧ 0 ≤ r.Ping := by
  have hd : 0 ≤ (if (downloadLoop w testURLs).1 == 0 then placeholderSpeed
      else (downloadLoop w testURLs).1) := by
    split
    · norm_num [placeholderSpeed]
    · exact downloadLoop_nonneg w testURLs
  refine ⟨_, rfl, hd, ?_, estimatePing_nonneg w⟩
  exact mul_nonneg hd (by norm_num)

theorem updateMetrics_cache (w : World) (now : Int) (s : State) (r : SpeedTestResult)
    (hr : (performSpeedTest w).1 = .ok r) (hs : s.testInProgress = false) :
    (updateMetrics w now s).1.resultCache = some r := by
  simp [updateMetrics, updateMetricsWith, tryStart, hs, hr, record, release]

/-- C10, refuted as stated: a legacy report carrying a negative download rate is returned
by `performSpeedTest` and stored in the cache by `updateMetrics` with `Download < 0`. -/
theorem negative_report_reaches_cache :
    (performSpeedTest negativeReport).1 = .ok { Download := -1, Upload := 500, Ping := 12 } ∧
    (updateMetrics negativeReport 0 (State.initial 0)).1.resultCache =
      some { Download := -1, Upload := 500, Ping := 12 } ∧
    (-1 : ℚ) < 0 :=
  ⟨rfl, rfl, by norm_num⟩

/-- C10 (non-negative results, amended): if the reports of the two CLI tools carry no
negative number in the members the program reads, the result of `performSpeedTest` has
`Download`, `Upload` and `Ping` at least 0, and it is the entry `updateMetrics` stores in
the cache when it acquires the guard. -/
theorem performSpeedTest_nonneg_of_reports (w : World) (now : Int) (s : State)
    (hO : ∀ out, w.ookla = .ok out → NonnegAt out ooklaPaths)
    (hC : ∀ out, w.cli = .ok out → NonnegAt out cliPaths) :
    ∃ r, (performSpeedTest w).1 = .ok r ∧ 0 ≤ r.Download ∧ 0 ≤ r.Upload ∧ 0 ≤ r.Ping ∧
      (s.testInProgress = false → (updateMetrics w now s).1.resultCache = some r) := by
  have key : ∃ r, (performSpeedTest w).1 = .ok r ∧ 0 ≤ r.Download ∧ 0 ≤ r.Upload ∧
      0 ≤ r.Ping := by
    rw [performSpeedTest_result]
    cases h1 : (runOoklaSpeedtest w).1 with
    | ok r =>
      refine ⟨r, rfl, ?_⟩
      cases ho : w.ookla with
      | error e => simp [runOoklaSpeedtest, ho] at h1
      | ok out =>
        have hn := hO out ho
        match out, ho, hn with
        | .ok (.obj doc), ho, hn =>
          rw [runOoklaSpeedtest_object w doc ho] at h1
          cases h1
          refine ⟨mul_nonneg (assertFloat64_nonneg _ (hn _ (by simp [ooklaPaths])))
            (by norm_num), mul_nonneg (assertFloat64_nonneg _ (hn _ (by simp [ooklaPaths])))
            (by norm_num), assertFloat64_nonneg _ (hn _ (by simp [ooklaPaths]))⟩
        | .ok .null, ho, _ =>
          simp [runOoklaSpeedtest, ho, unmarshalMap, mapIndex_nil, assertMap,
            assertFloat64] at h1
          subst h1
          exact ⟨le_refl _, le_refl _, le_refl _⟩
        | .error _, ho, _ => simp [runOoklaSpeedtest, ho, unmarshalMap] at h1
        | .ok (.bool _), ho, _ => simp [runOoklaSpeedtest, ho, unmarshalMap] at h1
        | .ok (.num _), ho, _ => simp [runOoklaSpeedtest, ho, unmarshalMap] at h1
        | .ok (.str _), ho, _ => simp [runOoklaSpeedtest, ho, unmarshalMap] at h1
        | .ok (.arr _), ho, _ => simp [runOoklaSpeedtest, ho, unmarshalMap] at h1
    | error e =>
      cases h2 : (runSpeedtestCLI w).1 with
      | ok r =>
        refine ⟨r, rfl, ?_⟩
        cases hc : w.cli with
        | error e => simp [runSpeedtestCLI, hc] at h2
        | ok out =>
          have hn := hC out hc
          match out, hc, hn with
          | .ok (.obj doc), hc, hn =>
            rw [runSpeedtestCLI_object w doc hc] at h2
            cases h2
            exact ⟨assertFloat64_nonneg _ (hn _ (by simp [cliPaths])),
              assertFloat64_nonneg _ (hn _ (by simp [cliPaths])),
              assertFloat64_nonneg _ (hn _ (by simp [cliPaths]))⟩
          | .ok .null, hc, _ =>
            simp [runSpeedtestCLI, hc, unmarshalMap, mapIndex_nil, assertFloat64] at h2
            subst h2
            exact ⟨le_refl _, le_refl _, le_refl _⟩
          | .error _, hc, _ => simp [runSpeedtestCLI, hc, unmarshalMap] at h2
          | .ok (.bool _), hc, _ => simp [runSpeedtestCLI, hc, unmarshalMap] at h2
          | .ok (.num _), hc, _ => simp [runSpeedtestCLI, hc, unmarshalMap] at h2
          | .ok (.str _), hc, _ => simp [runSpeedtestCLI, hc, unmarshalMap] at h2
          | .ok (.arr _), hc, _ => simp [runSpeedtestCLI, hc, unmarshalMap] at h2
      | error e2 => exact performHTTPSpeedTest_nonneg w
  obtain ⟨r, hr, h⟩ := key
  exact ⟨r, hr, h.1, h.2.1, h.2.2, updateMetrics_cache w now s r hr⟩

/-- Witness for C10 as amended: the Ookla report of 100 and 50 bytes per second with a
latency of 12 ms carries no negative number and yields a non-negative result. -/
theorem performSpeedTest_nonneg_of_reports_witness :
    (∀ out, ooklaReport.ookla = .ok out → NonnegAt out ooklaPaths) ∧
    (∀ out, ooklaReport.cli = .ok out → NonnegAt out cliPaths) ∧
    ∃ r, (performSpeedTest ooklaReport).1 = .ok r ∧ 0 ≤ r.Download ∧ 0 ≤ r.Upload ∧
      0 ≤ r.Ping ∧
      ((State.initial 0).testInProgress = false →
        (updateMetrics ooklaReport 7 (State.initial 0)).1.resultCache = some r) := by
  have hO : ∀ out, ooklaReport.ookla = .ok out → NonnegAt out ooklaPaths := by
    intro out h
    have h2 : Except.ok (.ok (JSON.obj [("download", .obj [("bandwidth", .num 100)]),
        ("upload", .obj [("bandwidth", .num 50)]),
        ("ping", .obj [("latency", .num 12)])])) = (Except.ok out : Except String Stdout) := h
    cases h2
    intro ks hks x hx
    simp only [ooklaPaths, List.mem_cons, List.mem_singleton, List.not_mem_nil,
      or_false] at hks
    rcases hks with rfl | rfl | rfl
    · have e : path (.ok (JSON.obj [("download", .obj [("bandwidth", .num 100)]),
          ("upload", .obj [("bandwidth", .num 50)]),
          ("ping", .obj [("latency", .num 12)])])) ["download", "bandwidth"]
          = some (.num 100) := rfl
      rw [e] at hx
      cases hx
      norm_num
    · have e : path (.ok (JSON.obj [("download", .obj [("bandwidth", .num 100)]),
          ("upload", .obj [("bandwidth", .num 50)]),
          ("ping", .obj [("latency", .num 12)])])) ["upload", "bandwidth"]
          = some (.num 50) := rfl
      rw [e] at hx
      cases hx
      norm_num
    · have e : path (.ok (JSON.obj [("download", .obj [("bandwidth", .num 100)]),
          ("upload", .obj [("bandwidth", .num 50)]),
          ("ping", .obj [("latency", .num 12)])])) ["ping", "latency"]
          = some (.num 12) := rfl
      rw [e] at hx
      cases hx
      norm_num
  have hC : ∀ out, ooklaReport.cli = .ok out → NonnegAt out cliPaths := by
    intro out h
    have h2 : Except.error "exec: not found" = (Except.ok out : Except String Stdout) := h
    cases h2
  exact ⟨hO, hC, performSpeedTest_nonneg_of_reports ooklaReport 7 (State.initial 0) hO hC⟩

theorem parseFloat_twenty : parseFloat ['2', '0'] = some 20 := by
  simp [parseFloat, List.takeWhile, List.dropWhile, digitsValue, inFloatRange]
  norm_num

theorem pingAverage_windowsSummary : pingAverage windowsSummary = 20 := by
  have h1 : findSubmatch matchAvgHere windowsSummary = none := by decide
  have h2 : findSubmatch matchAverageHere windowsSummary = some ['2', '0'] := by decide
  unfold pingAverage
  rw [h1, h2]
  simp [parseFloat_twenty]

/-- C9, the code at the failing input: on the Linux summary line quoted in the source the
pattern of line 145 finds no match (after `avg/` comes `max`, not a digit), neither does the
Windows pattern, so the target yields no value and `estimatePing` returns the fallback
20 where the report says 20.2. The Windows summary line, by contrast, yields its
average. -/
theorem estimatePing_linux_summary_falls_back :
    findSubmatch matchAvgHere linuxSummary = none ∧
    findSubmatch matchAverageHere linuxSummary = none ∧
    pingAverage linuxSummary = 0 ∧
    (estimatePing linuxPing).1 = 20 ∧
    pingAverage windowsSummary = 20 :=
  ⟨by decide, by decide, by decide, by decide, pingAverage_windowsSummary⟩

theorem timeSince_gt_thirtyMinutes (now t : Int) :
    timeSince now t > thirtyMinutes ↔ now - t > thirtyMinutes := by
  unfold timeSince
  have h1 : thirtyMinutes = 1800000000000 := by norm_num [thirtyMinutes]
  have h2 : maxDuration = 9223372036854775807 := by norm_num [maxDuration]
  have h3 : minDuration = -9223372036854775808 := by norm_num [minDuration]
  rw [h1, h2, h3]
  split_ifs <;> omega

theorem updateMetrics_events_head (w : World) (stored : Int) (s : State) :
    Event.call "updateMetrics" ∈ (updateMetrics w stored s).2 := by
  unfold updateMetrics updateMetricsWith
  simp only
  split <;> simp

theorem metricsHandler_called_iff (w : World) (now stored : Int) (s : State) :
    Event.call "updateMetrics" ∈ (metricsHandler w now stored s).events ↔
      s.resultCache = none ∨ now - s.lastTestTime > thirtyMinutes := by
  unfold metricsHandler
  simp only
  split
  · rename_i hc
    simp only [Bool.or_eq_true, Option.isNone_iff_eq_none, decide_eq_true_eq,
      timeSince_gt_thirtyMinutes] at hc
    simp only [updateMetrics_events_head, true_iff]
    exact hc
  · rename_i hc
    simp only [Bool.or_eq_true, Option.isNone_iff_eq_none, decide_eq_true_eq,
      timeSince_gt_thirtyMinutes] at hc
    simp only [List.not_mem_nil, false_iff]
    exact hc

/-- C4 (staleness boundary): the scrape handler calls `updateMetrics` if and only if there
is no cache entry or `now - lastTestTime` is strictly greater than 30 minutes. For an entry
measured at `T`, a read at `T` + 29 min 59 s does not call it, a read at `T` + 30 min 1 s
does, and a read at exactly `T` + 30 min does not. -/
theorem metricsHandler_staleness_boundary (w : World) (now stored : Int) (s : State) :
    (Event.call "updateMetrics" ∈ (metricsHandler w now stored s).events ↔
      s.resultCache = none ∨ now - s.lastTestTime > thirtyMinutes) ∧
    (s.resultCache ≠ none → now = s.lastTestTime + (29 * 60 + 59) * 1000000000 →
      Event.call "updateMetrics" ∉ (metricsHandler w now stored s).events) ∧
    (s.resultCache ≠ none → now = s.lastTestTime + (30 * 60 + 1) * 1000000000 →
      Event.call "updateMetrics" ∈ (metricsHandler w now stored s).events) ∧
    (s.resultCache ≠ none → now = s.lastTestTime + 30 * 60 * 1000000000 →
      Event.call "updateMetrics" ∉ (metricsHandler w now stored s).events) := by
  have h30 : thirtyMinutes = 1800000000000 := by norm_num [thirtyMinutes]
  refine ⟨metricsHandler_called_iff w now stored s, ?_, ?_, ?_⟩
  · intro hc hn
    rw [metricsHandler_called_iff, h30]
    rintro (h | h)
    · exact hc h
    · omega
  · intro _ hn
    rw [metricsHandler_called_iff, h30]
    right
    omega
  · intro hc hn
    rw [metricsHandler_called_iff, h30]
    rintro (h | h)
    · exact hc h
    · omega

/-- Witness for C4: an entry measured at instant 1000 is refreshed by a read 30 min 1 s
later. -/
theorem metricsHandler_staleness_boundary_witness :
    cachedState.resultCache ≠ none ∧
    Event.call "updateMetrics" ∈
      (metricsHandler offline (1000 + (30 * 60 + 1) * 1000000000) 0 cachedState).events :=
  ⟨by decide,
    (metricsHandler_staleness_boundary offline (1000 + (30 * 60 + 1) * 1000000000) 0
      cachedState).2.2.1 (by decide) rfl⟩

theorem metricsHandler_fresh (w : World) (now stored : Int) (s : State) (r : SpeedTestResult)
    (hc : s.resultCache = some r) (hfresh : now - s.lastTestTime ≤ thirtyMinutes) :
    (metricsHandler w now stored s).state = s ∧
    (metricsHandler w now stored s).events = [] ∧
    (metricsHandler w now stored s).body = serve s := by
  have hn : ¬ (timeSince now s.lastTestTime > thirtyMinutes) := by
    rw [timeSince_gt_thirtyMinutes]
    exact not_lt.mpr hfresh
  unfold metricsHandler
  simp [hc, hn]

/-- C5 (idempotent read): when a cache entry is present and `now - lastTestTime` is at most
30 minutes, one run of the scrape handler causes no event (no strategy runs) and leaves the
cache, `lastTestTime`, `testInProgress` and the four gauges unchanged; a second read inside
the window is served the same values as the first. -/
theorem metricsHandler_idempotent_read (w : World) (now stored : Int) (s : State)
    (r : SpeedTestResult) (hc : s.resultCache = some r)
    (hfresh : now - s.lastTestTime ≤ thirtyMinutes) :
    (metricsHandler w now stored s).state = s ∧
    (metricsHandler w now stored s).events = [] ∧
    (metricsHandler w now stored s).body = serve s ∧
    (∀ (w2 : World) (now2 stored2 : Int), now2 - s.lastTestTime ≤ thirtyMinutes →
      (metricsHandler w2 now2 stored2 (metricsHandler w now stored s).state).body =
        (metricsHandler w now stored s).body ∧
      (metricsHandler w2 now2 stored2 (metricsHandler w now stored s).state).events = []) := by
  obtain ⟨h1, h2, h3⟩ := metricsHandler_fresh w now stored s r hc hfresh
  refine ⟨h1, h2, h3, ?_⟩
  intro w2 now2 stored2 hf2
  rw [h1, h3]
  obtain ⟨_, k2, k3⟩ := metricsHandler_fresh w2 now2 stored2 s r hc hf2
  exact ⟨k3, k2⟩

/-- Witness for C5: a read ten minutes after the measurement at instant 1000, although
every strategy would be available to run. -/
theorem metricsHandler_idempotent_read_witness :
    cachedState.resultCache = some { Download := 800, Upload := 400, Ping := 12 } ∧
    (1000 + 10 * 60 * 1000000000 : Int) - cachedState.lastTestTime ≤ thirtyMinutes ∧
    (metricsHandler legacyOnly (1000 + 10 * 60 * 1000000000) 5 cachedState).state
      = cachedState ∧
    (metricsHandler legacyOnly (1000 + 10 * 60 * 1000000000) 5 cachedState).events = [] :=
  ⟨rfl, by decide,
    (metricsHandler_idempotent_read legacyOnly (1000 + 10 * 60 * 1000000000) 5 cachedState
      _ rfl (by decide)).1,
    (metricsHandler_idempotent_read legacyOnly (1000 + 10 * 60 * 1000000000) 5 cachedState
      _ rfl (by decide)).2.1⟩

/-- C6 (guaranteed release): a call of `updateMetrics` that finds the flag clear acquires
the guard and leaves `testInProgress = false` on return, whether `performSpeedTest` returned
a result or an error; a call that finds the flag set returns with the state unchanged; so
after a complete call run alone the flag has the value it had before. -/
theorem updateMetrics_guaranteed_release (test : Except String SpeedTestResult × List Event)
    (w : World) (now : Int) (s : State) :
    (s.testInProgress = false →
      (tryStart s).1 = true ∧ (tryStart s).2.testInProgress = true ∧
      (updateMetricsWith test now s).1.testInProgress = false) ∧
    (s.testInProgress = true →
      (tryStart s).1 = false ∧ (updateMetricsWith test now s).1 = s) ∧
    (updateMetricsWith test now s).1.testInProgress = s.testInProgress ∧
    (updateMetrics w now s).1.testInProgress = s.testInProgress := by
  have key : ∀ t : Except String SpeedTestResult × List Event,
      (updateMetricsWith t now s).1.testInProgress = s.testInProgress := by
    intro t
    unfold updateMetricsWith tryStart
    cases hs : s.testInProgress with
    | true => simp [hs]
    | false =>
      cases t.1 with
      | ok r => simp [record, release]
      | error e => simp [record, release]
  refine ⟨?_, ?_, key test, key _⟩
  · intro hs
    refine ⟨by simp [tryStart, hs], by simp [tryStart, hs], ?_⟩
    rw [key test, hs]
  · intro hs
    exact ⟨by simp [tryStart, hs], by simp [updateMetricsWith, tryStart, hs]⟩

/-- Witness for C6: a call from the initial state whose speed test returns an error. -/
theorem updateMetrics_guaranteed_release_witness :
    (State.initial 0).testInProgress = false ∧
    (updateMetricsWith (.error "boom", []) 5 (State.initial 0)).1.testInProgress = false :=
  ⟨rfl,
    ((updateMetrics_guaranteed_release (.error "boom", []) offline 5
      (State.initial 0)).1 rfl).2.2⟩

theorem record_testInProgress (outcome : Except String SpeedTestResult) (now : Int)
    (s : State) : (record outcome now s).1.testInProgress = s.testInProgress := by
  cases outcome <;> rfl

theorem step_guardInv (m : Move) (σ : Sys) (h : GuardInv σ) : GuardInv (step m σ) := by
  unfold step
  cases hget : σ.callers[m.caller]? with
  | none => exact h
  | some c =>
    obtain ⟨hlt, hc⟩ := List.getElem?_eq_some_iff.mp hget
    have hle := List.boole_getElem_le_countP Caller.holds σ.callers m.caller hlt
    unfold GuardInv holders at h ⊢
    simp only [List.countP_set Caller.holds σ.callers m.caller _ hlt, hc]
    rw [hc] at hle
    obtain ⟨pc, tests⟩ := c
    cases pc with
    | idle =>
      have e1 : Caller.holds { pc := Pc.idle, tests := tests } = false := rfl
      have e2 : Caller.holds { pc := Pc.entry, tests := tests } = false := rfl
      simp only [stepCaller, e1, e2]
      simpa using h
    | entry =>
      have e1 : Caller.holds { pc := Pc.entry, tests := tests } = false := rfl
      have e2 : Caller.holds { pc := Pc.idle, tests := tests } = false := rfl
      have e3 : Caller.holds { pc := Pc.testing, tests := tests + 1 } = true := rfl
      cases hf : σ.shared.testInProgress with
      | true =>
        rw [hf] at h
        simp [stepCaller, tryStart, hf, e1, e2]
        simpa using h
      | false =>
        rw [hf] at h
        simp [stepCaller, tryStart, hf, e1, e3]
        simpa using h
    | testing =>
      have e1 : Caller.holds { pc := Pc.testing, tests := tests } = true := rfl
      have e2 : Caller.holds { pc := Pc.recording, tests := tests } = true := rfl
      rw [e1] at hle
      simp only [stepCaller, e1, e2, record_testInProgress]
      simp only [if_true] at hle ⊢
      rw [← h]
      omega
    | recording =>
      have e1 : Caller.holds { pc := Pc.recording, tests := tests } = true := rfl
      have e2 : Caller.holds { pc := Pc.idle, tests := tests } = false := rfl
      rw [e1] at hle
      simp only [stepCaller, e1, e2, release]
      simp only [if_true] at hle
      simp only [if_true, Bool.false_eq_true, if_false]
      split at h <;> omega

theorem run_guardInv (sched : List Move) : ∀ σ : Sys, GuardInv σ → GuardInv (run sched σ) := by
  induction sched with
  | nil => intro σ h; exact h
  | cons m rest ih =>
    intro σ h
    exact ih (step m σ) (step_guardInv m σ h)

theorem start_guardInv (s : State) (n : Nat) (h : s.testInProgress = false) :
    GuardInv (start s n) := by
  simp [GuardInv, holders, start, h, List.countP_replicate, Caller.holds]

theorem inFlight_le_holders (σ : Sys) : inFlight σ ≤ holders σ := by
  unfold inFlight holders
  apply List.countP_mono_left
  intro c _ hc
  simp only [Caller.inTest] at hc
  simp [Caller.holds, hc]

theorem holders_le_one (σ : Sys) (h : GuardInv σ) : holders σ ≤ 1 := by
  unfold GuardInv at h
  split at h <;> omega

theorem flag_of_holder (σ : Sys) (h : GuardInv σ) (j : Nat) (d : Caller)
    (hj : σ.callers[j]? = some d) (hd : d.holds = true) : σ.shared.testInProgress = true := by
  have hpos : 0 < holders σ :=
    List.countP_pos_iff.mpr ⟨d, List.mem_iff_getElem?.mpr ⟨j, hj⟩, hd⟩
  unfold GuardInv at h
  split at h
  · assumption
  · omega

/-- C1 (single-flight): from a state with `testInProgress = false` and no caller in a call,
after any interleaving of the atomic steps of any number of callers at most one caller is
between acquisition and release, at most one `performSpeedTest` is in flight, and a caller
that runs its test-and-set while another caller holds the guard returns to idle without
having begun a speed test and without changing the shared state. -/
theorem updateMetrics_single_flight (s : State) (n : Nat) (sched : List Move)
    (h : s.testInProgress = false) :
    holders (run sched (start s n)) ≤ 1 ∧
    inFlight (run sched (start s n)) ≤ 1 ∧
    (∀ (m : Move) (c : Caller), (run sched (start s n)).callers[m.caller]? = some c →
      c.pc = Pc.entry →
      (∃ j d, j ≠ m.caller ∧ (run sched (start s n)).callers[j]? = some d ∧
        d.holds = true) →
      (step m (run sched (start s n))).callers[m.caller]? =
        some { pc := Pc.idle, tests := c.tests } ∧
      (step m (run sched (start s n))).shared = (run sched (start s n)).shared ∧
      inFlight (step m (run sched (start s n))) = inFlight (run sched (start s n))) := by
  have hinv := run_guardInv sched (start s n) (start_guardInv s n h)
  refine ⟨holders_le_one _ hinv, le_trans (inFlight_le_holders _) (holders_le_one _ hinv), ?_⟩
  intro m c hget hpc hother
  obtain ⟨j, d, _, hj, hd⟩ := hother
  have hflag := flag_of_holder _ hinv j d hj hd
  obtain ⟨hlt, hc⟩ := List.getElem?_eq_some_iff.mp hget
  obtain ⟨pc, tests⟩ := c
  simp only at hpc
  subst hpc
  refine ⟨?_, ?_, ?_⟩
  · simp [step, hget, stepCaller, tryStart, hflag, hlt]
  · simp [step, hget, stepCaller, tryStart, hflag]
  · simp [step, hget, stepCaller, tryStart, hflag, inFlight,
      List.countP_set Caller.inTest _ m.caller _ hlt, hc, Caller.inTest]

/-- Witness for C1: three callers, caller 0 testing, caller 1 at its test-and-set; exactly
one caller holds the guard and caller 1 is sent back to idle with no test begun. -/
theorem updateMetrics_single_flight_witness :
    (State.initial 0).testInProgress = false ∧
    holders (run contended (start (State.initial 0) 3)) = 1 ∧
    holders (run contended (start (State.initial 0) 3)) ≤ 1 ∧
    (step { caller := 1, outcome := .error "", now := 0 }
      (run contended (start (State.initial 0) 3))).callers[1]? =
        some { pc := Pc.idle, tests := 0 } :=
  ⟨rfl, by decide,
    (updateMetrics_single_flight (State.initial 0) 3 contended rfl).1,
    ((updateMetrics_single_flight (State.initial 0) 3 contended rfl).2.2
      { caller := 1, outcome := .error "", now := 0 } { pc := Pc.entry, tests := 0 }
      (by decide) rfl ⟨0, { pc := Pc.testing, tests := 1 }, by decide, by decide, rfl⟩).1⟩

end SpeedtestExporter
